import Mathlib

/-!
# Verification of the SOCKS5 dialer core (address codec + session negotiator)

Shallow embedding of the two source files of the repository:
* `socks_addr.go` (package `dialer`): the `SocksAddr` address codec.
* `sock_dialer.go` (package `dialer`): the `SocksDialer.DialContext` handshake.

Go strings are byte sequences; we model them as `List Nat` (each element a
byte value).  The relevant parts of the Go standard library that the code
calls (`net/netip` address parsing, `strconv.Atoi`, `binary.BigEndian`) are
translated here as well, since the code's behaviour depends on them.
IPv6 zone suffixes are accepted by the parser but their text is discarded:
a zone never affects the wire bytes, which is all the claims talk about.
-/

namespace Dialer

/-- ASCII codes used by the parsers. -/
def dotByte : Nat := 46
def colonByte : Nat := 58
def percentByte : Nat := 37

/-- Model of `net/netip.Addr` (without zone text, see module comment):
the zero `Addr{}` is `invalid`; an address is otherwise a 4-byte (IPv4
family) or 16-byte (IPv6 family) sequence. -/
inductive Addr where
  | invalid : Addr
  | v4 : List Nat → Addr
  | v6 : List Nat → Addr
deriving DecidableEq, Repr

/-- `netip.Addr.Is4`: true exactly for the IPv4 family. -/
def Addr.Is4 : Addr → Bool
  | .v4 _ => true
  | _ => false

/-- The 12-byte prefix `::ffff:0:0/96` marking an IPv4-mapped IPv6 address. -/
def mapped96 : List Nat := [0, 0, 0, 0, 0, 0, 0, 0, 0, 0, 255, 255]

/-- `netip.Addr.Is4In6`: IPv6 family whose first 96 bits are `::ffff:0:0/96`. -/
def Addr.Is4In6 : Addr → Bool
  | .v6 bs => decide (bs.take 12 = mapped96)
  | _ => false

/-- `netip.Addr.Unmap`: strip the mapped prefix when `Is4In6`, else identity. -/
def Addr.Unmap : Addr → Addr
  | .v6 bs => if bs.take 12 = mapped96 then .v4 (bs.drop 12) else .v6 bs
  | a => a

/-- `netip.Addr.AsSlice`: 4 bytes, 16 bytes, or nil for the zero Addr. -/
def Addr.AsSlice : Addr → List Nat
  | .invalid => []
  | .v4 bs => bs
  | .v6 bs => bs

/-- `netip.AddrFromSlice`: 4 bytes makes an IPv4-family address, 16 bytes an
IPv6-family address (a mapped pattern is kept in IPv6 form), else failure. -/
def AddrFromSlice (bs : List Nat) : Option Addr :=
  if bs.length = 4 then some (.v4 bs)
  else if bs.length = 16 then some (.v6 bs)
  else none

/-- `netip.Addr.IsUnspecified`: equal to `0.0.0.0` or to `::`. -/
def Addr.IsUnspecified : Addr → Bool
  | .v4 bs => decide (bs = [0, 0, 0, 0])
  | .v6 bs => decide (bs = List.replicate 16 0)
  | .invalid => false

/-- The `SocksAddr` struct; Go zero value = all fields at their defaults. -/
structure SocksAddr where
  addr : Addr := .invalid
  fqdn : List Nat := []
  port : Nat := 0
deriving DecidableEq, Repr

/-- `SocksAddrFromFqdnPort`: no length check is applied. -/
def SocksAddrFromFqdnPort (fqdn : List Nat) (port : Nat) : SocksAddr :=
  { addr := .invalid, fqdn := fqdn, port := port }

/-- Model of `netip.AddrPort`. -/
structure AddrPort where
  addr : Addr
  port : Nat
deriving DecidableEq, Repr

/-- `SocksAddrFromAddrPort`: stores the address exactly as found in the
`AddrPort`; note that, unlike `ParseSocksAddr` and `SetAddr`, it performs
no `Is4In6`/`Unmap` normalization. -/
def SocksAddrFromAddrPort (ap : AddrPort) : SocksAddr :=
  { addr := ap.addr, fqdn := [], port := ap.port }

/-- `(*SocksAddr).SetAddr` (mutation modelled functionally): unmap an
IPv4-mapped IPv6 address before storing; the `fqdn` field is untouched. -/
def SocksAddr.SetAddr (s : SocksAddr) (a : Addr) : SocksAddr :=
  if a.Is4In6 then { s with addr := a.Unmap } else { s with addr := a }

/-- `(*SocksAddr).SetFqdn`: the `addr` field is untouched. -/
def SocksAddr.SetFqdn (s : SocksAddr) (f : List Nat) : SocksAddr :=
  { s with fqdn := f }

/-- `(*SocksAddr).SetPort`. -/
def SocksAddr.SetPort (s : SocksAddr) (p : Nat) : SocksAddr :=
  { s with port := p }

/-- `binary.BigEndian.AppendUint16`: big-endian bytes of a `uint16`.
(Go's `port` is a `uint16`, hence `< 65536`; the `% 256` on the high byte
makes the model total.) -/
def bePort (p : Nat) : List Nat := [p / 256 % 256, p % 256]

/-- `binary.BigEndian.Uint16` on a 2-byte buffer (Go bytes are `< 256` by
type; `% 256` makes the model total on arbitrary `Nat` lists). -/
def beUint16 (bs : List Nat) : Nat := bs.getD 0 0 % 256 * 256 + bs.getD 1 0 % 256

/-- `(*SocksAddr).Slice`: type tag, then address body, then 2-byte BE port.
`byte(len(fqdn))` truncates the length to one byte, hence `% 256`. -/
def SocksAddr.Slice (s : SocksAddr) : List Nat :=
  (if s.fqdn.length > 0 then 3 :: s.fqdn.length % 256 :: s.fqdn
   else if s.addr.Is4 then 1 :: s.addr.AsSlice
   else 4 :: s.addr.AsSlice) ++ bePort s.port

/-- `netip.Addr.Is6`: true exactly for the IPv6 family. -/
def Addr.Is6 : Addr → Bool
  | .v6 _ => true
  | _ => false

def isDigit (c : Nat) : Bool := 48 ≤ c && c ≤ 57

/-- Accumulate a run of decimal digits; fails on any non-digit. -/
def digitsAcc : List Nat → Nat → Option Nat
  | [], acc => some acc
  | c :: rest, acc => if isDigit c then digitsAcc rest (acc * 10 + (c - 48)) else none

/-- A nonempty all-digit string, as a number. -/
def parseDigits : List Nat → Option Nat
  | [] => none
  | s => digitsAcc s 0

/-- `strconv.Atoi` = `ParseInt(s, 10, 0)` on a 64-bit platform: an optional
sign, then one or more decimal digits, nothing else; values outside the
`int64` range are an error. -/
def Atoi (s : List Nat) : Option Int :=
  match s with
  | 43 :: rest =>  -- leading '+'
    match parseDigits rest with
    | some n => if n ≤ 9223372036854775807 then some (Int.ofNat n) else none
    | none => none
  | 45 :: rest =>  -- leading '-'
    match parseDigits rest with
    | some n => if n ≤ 9223372036854775808 then some (-(n : Int)) else none
    | none => none
  | _ =>
    match parseDigits s with
    | some n => if n ≤ 9223372036854775807 then some (Int.ofNat n) else none
    | none => none

/-- `strconv.ParseUint(s, 10, 16)`: unsigned, digits only, at most 65535. -/
def parseUint16 (s : List Nat) : Option Nat :=
  match parseDigits s with
  | some n => if n ≤ 65535 then some n else none
  | none => none

/-- `parseIPv4Fields` from net/netip: the dotted-quad field scanner.
State: remaining input, current field value, digits seen in the current
field, completed fields.  Rejects leading zeros, fields over 255, empty
fields, and anything but exactly four fields. -/
def parseIPv4Fields : List Nat → Nat → Nat → List Nat → Option (List Nat)
  | [], val, _, fields =>
    if fields.length < 3 then none else some (fields ++ [val])
  | c :: rest, val, digLen, fields =>
    if isDigit c then
      if digLen = 1 ∧ val = 0 then none  -- leading zero in a field
      else
        let v := val * 10 + (c - 48)
        if v > 255 then none
        else parseIPv4Fields rest v (digLen + 1) fields
    else if c = dotByte then
      if digLen = 0 then none            -- field with no digits
      else if rest = [] then none        -- dot at end of string
      else if fields.length = 3 then none  -- too many fields
      else parseIPv4Fields rest 0 0 (fields ++ [val])
    else none

/-- net/netip `parseIPv4`: the whole string as a dotted quad. -/
def parseIPv4 (s : List Nat) : Option Addr :=
  (parseIPv4Fields s 0 0 []).map .v4

def hexVal (c : Nat) : Option Nat :=
  if 48 ≤ c ∧ c ≤ 57 then some (c - 48)
  else if 97 ≤ c ∧ c ≤ 102 then some (c - 87)
  else if 65 ≤ c ∧ c ≤ 70 then some (c - 55)
  else none

/-- Scan one hex group of `parseIPv6`: (value, digits consumed, rest);
fails when the accumulated value reaches 2^16. -/
def scanHexGroup : List Nat → Nat → Nat → Option (Nat × Nat × List Nat)
  | [], acc, off => some (acc, off, [])
  | c :: rest, acc, off =>
    match hexVal c with
    | none => some (acc, off, c :: rest)
    | some d =>
      let a := acc * 16 + d
      if a > 65535 then none else scanHexGroup rest a (off + 1)

/-- The main loop of net/netip `parseIPv6`.  State: remaining input, the
address bytes built so far (Go's index `i` is `acc.length`), and the byte
position of the `::` ellipsis if one was seen.  Returns the loop-exit
state, or `none` on a parse error.  Each iteration consumes input and adds
at least two bytes to `acc`, so with the `16 ≤ acc.length` guard a fuel of
8 is never exhausted before the loop would exit on its own. -/
def ipv6Loop : Nat → List Nat → List Nat → Option Nat →
    Option (List Nat × List Nat × Option Nat)
  | 0, s, acc, ell => some (s, acc, ell)
  | fuel + 1, s, acc, ell =>
    if 16 ≤ acc.length then some (s, acc, ell)
    else
      match scanHexGroup s 0 0 with
      | none => none
      | some (v, off, rest) =>
        if off = 0 then none  -- a group needs at least one digit
        else if rest.head? = some dotByte then
          -- embedded IPv4 trailer: must fill the final 4 bytes; all of the
          -- current remainder `s` is re-parsed as a dotted quad
          if ell = none ∧ acc.length ≠ 12 then none
          else if 16 < acc.length + 4 then none
          else
            match parseIPv4Fields s 0 0 [] with
            | none => none
            | some quad => some ([], acc ++ quad, ell)
        else
          let acc2 := acc ++ [v / 256, v % 256]
          match rest with
          | [] => some ([], acc2, ell)
          | c :: rest2 =>
            if c ≠ colonByte then none
            else
              match rest2 with
              | [] => none  -- a colon must be followed by more characters
              | c2 :: rest3 =>
                if c2 = colonByte then  -- a second colon: the `::` ellipsis
                  if ell.isSome then none
                  else if rest3 = [] then some ([], acc2, some acc2.length)
                  else ipv6Loop fuel rest3 acc2 (some acc2.length)
                else ipv6Loop fuel (c2 :: rest3) acc2 ell

/-- Post-loop processing of net/netip `parseIPv6`: no trailing garbage,
expand the ellipsis to the missing zero bytes. -/
def ipv6Post : Option (List Nat × List Nat × Option Nat) → Option Addr
  | none => none
  | some (s, acc, ell) =>
    if s ≠ [] then none
    else if acc.length < 16 then
      match ell with
      | none => none
      | some e =>
        some (.v6 (acc.take e ++ List.replicate (16 - acc.length) 0 ++ acc.drop e))
    else if ell.isSome then none
    else some (.v6 acc)

/-- net/netip `parseIPv6`.  The zone (after `%`) must be nonempty when
present; its text is then discarded (see module comment). -/
def parseIPv6 (s0 : List Nat) : Option Addr :=
  let s := s0.takeWhile (fun c => c != percentByte)
  let zone := (s0.dropWhile (fun c => c != percentByte)).tail
  if percentByte ∈ s0 ∧ zone = [] then none
  else
    match s with
    | c1 :: c2 :: rest =>
      if c1 = colonByte ∧ c2 = colonByte then  -- leading "::"
        if rest = [] then some (.v6 (List.replicate 16 0))
        else ipv6Post (ipv6Loop 8 rest [] (some 0))
      else ipv6Post (ipv6Loop 8 (c1 :: c2 :: rest) [] none)
    | s' => ipv6Post (ipv6Loop 8 s' [] none)

/-- net/netip `ParseAddr`: dispatch on the first `.`, `:` or `%`. -/
def ParseAddr (s : List Nat) : Option Addr :=
  match s.find? (fun c => c == dotByte || c == colonByte || c == percentByte) with
  | some c =>
    if c = dotByte then parseIPv4 s
    else if c = colonByte then parseIPv6 s
    else none  -- '%' first: missing IPv6 address
  | none => none

/-- Index of the last occurrence of a byte. -/
def lastIndexOf (c : Nat) : List Nat → Option Nat
  | [] => none
  | x :: xs =>
    match lastIndexOf c xs with
    | some i => some (i + 1)
    | none => if x = c then some 0 else none

/-- net/netip `splitAddrPort`: split at the last colon; a bracketed host
must be `[...]` and is marked `v6`. -/
def splitAddrPort (s : List Nat) : Option (List Nat × List Nat × Bool) :=
  match lastIndexOf colonByte s with
  | none => none
  | some i =>
    let ip := s.take i
    let port := s.drop (i + 1)
    if ip = [] then none
    else if port = [] then none
    else if ip.head? = some 91 then  -- '['
      if ip.length < 2 then none
      else if ip.getLast? ≠ some 93 then none  -- missing ']'
      else some ((ip.drop 1).dropLast, port, true)
    else some (ip, port, false)

/-- net/netip `ParseAddrPort`. -/
def ParseAddrPort (s : List Nat) : Option AddrPort :=
  match splitAddrPort s with
  | none => none
  | some (ip, port, v6) =>
    match parseUint16 port with
    | none => none
    | some p =>
      match ParseAddr ip with
      | none => none
      | some a =>
        if v6 && a.Is4 then none
        else if !v6 && a.Is6 then none
        else some ⟨a, p⟩

/-- First component of `strings.SplitN(s, ":", 2)`. -/
def hostPart (s : List Nat) : List Nat := s.takeWhile (fun c => c != colonByte)

/-- Second component of `strings.SplitN(s, ":", 2)` (when a colon exists). -/
def portPart (s : List Nat) : List Nat := (s.dropWhile (fun c => c != colonByte)).tail

/-- `ParseSocksAddr` from socks_addr.go. -/
def ParseSocksAddr (s : List Nat) : Except String SocksAddr :=
  match ParseAddrPort s with
  | some ap =>
    if ap.addr.Is4In6 then .ok { addr := ap.addr.Unmap, fqdn := [], port := ap.port }
    else .ok { addr := ap.addr, fqdn := [], port := ap.port }
  | none =>
    if colonByte ∈ s then
      if (hostPart s).length > 255 then .error "address too long"
      else
        match Atoi (portPart s) with
        | none => .error "invalid port"
        | some p =>
          if p < 0 ∨ p > 65535 then .error "invalid port"
          else .ok { addr := .invalid, fqdn := hostPart s, port := p.toNat }
    else .error "invalid socksaddr"

/-- `handleAssociateStatus` from `sock_dialer.go`, verbatim table. -/
def handleAssociateStatus (status : Nat) : String :=
  if status = 1 then "associate failed: general socks server failure"
  else if status = 2 then "connection not allowed by ruleset"
  else if status = 3 then "network unreachable"
  else if status = 4 then "host unreachable"
  else if status = 5 then "connection refused"
  else if status = 6 then "ttl expired"
  else if status = 7 then "command not supported"
  else if status = 8 then "address type not supported"
  else if status = 9 then "host unreachable"
  else "unassigned"

/-- Bytes of a Lean string literal, as a Go string (all uses are ASCII). -/
def gostr (s : String) : List Nat := s.data.map Char.toNat

/-- Render a Go string for an error message (`fmt` `%s`). -/
def strOfBytes (bs : List Nat) : String := String.mk (bs.map Char.ofNat)

/-- I/O actions performed by `DialContext`, in order.  The Go code dials
`d.addr.String()` resp. `bindAddr.String()`; we record the `SocksAddr`
itself, since no claim depends on its textual rendering. -/
inductive Event where
  | dialTCP (proxy : SocksAddr)
  | write (bs : List Nat)
  | read (bs : List Nat)
  | dialUDP (bindAddr : SocksAddr)
deriving DecidableEq, Repr

/-- What a successful `DialContext` returns: the raw TCP connection for
CONNECT, or the wrapping `SocksPacketConn` (its recorded fixed destination
and the bind address it dialed) for ASSOCIATE. -/
inductive DialResult where
  | tcpConn : DialResult
  | udpConn (dest : Option SocksAddr) (bindAddr : SocksAddr) : DialResult
deriving DecidableEq, Repr

deriving instance DecidableEq for Except

structure DialOutcome where
  result : Except String DialResult
  events : List Event
deriving DecidableEq, Repr

/-- `conn.Read` into a `k`-byte buffer, modelled on a connection that
returns the available bytes (at most `k`) with a nil error; exhaustion
shows up as a short count, which is exactly what the code's `n < k`
checks test. -/
def readConn (input : List Nat) (k : Nat) : List Nat × List Nat :=
  (input.take k, input.drop k)

/-- The `switch authRes[3]` bind-address decoder of `DialContext`
(sock_dialer.go lines 102-152), as a function of the type byte and the
remaining reply stream: the three-variant by-type decoder.  Returns the
decoded `SocksAddr` (built by mutating a zero value, as in the source),
the unconsumed stream, and the reads performed.

Note the FQDN arm: the source tests `n == 0` — the number of bytes the
length read returned — not the length byte's value, so a declared length
of zero is accepted and decodes an empty name. -/
def decodeBind (atyp : Nat) (input : List Nat) :
    Except String SocksAddr × List Nat × List Event :=
  if atyp = 1 then  -- TypeIPv4
    let (bs, rest) := readConn input 4
    if bs.length < 4 then
      (.error "parse ipv4 bind address failed: bind address too short", rest, [.read bs])
    else
      match AddrFromSlice bs with
      | some a => (.ok (SocksAddr.SetAddr {} a), rest, [.read bs])
      | none => (.error "parse ipv4 bind address failed: invalid ipv4 address", rest, [.read bs])
  else if atyp = 3 then  -- TypeFqdn
    let (lenB, rest) := readConn input 1
    if lenB.length = 0 then
      (.error "parse fqdn bind address failed: length is zero", rest, [.read lenB])
    else
      let L := lenB.getD 0 0
      let (name, rest2) := readConn rest L
      if name.length < L then
        (.error "parse fqdn bind address failed: bind address too short", rest2,
          [.read lenB, .read name])
      else (.ok (SocksAddr.SetFqdn {} name), rest2, [.read lenB, .read name])
  else if atyp = 4 then  -- TypeIPv6
    let (bs, rest) := readConn input 16
    if bs.length < 16 then
      (.error "parse ipv6 bind address failed: bind address too short", rest, [.read bs])
    else
      match AddrFromSlice bs with
      | some a => (.ok (SocksAddr.SetAddr {} a), rest, [.read bs])
      | none => (.error "parse ipv6 bind address failed: invalid ipv6 address", rest, [.read bs])
  else (.error ("unsupported bind address type: " ++ toString atyp), input, [])

/-- The full reply-address decoding used by `DialContext`: a type byte,
then `decodeBind`, then the trailing 2-byte big-endian port
(sock_dialer.go lines 102-161).  Stated over a plain byte list so it can
be composed with `Slice` for the round-trip claim; returns the decoded
address and the leftover bytes. -/
def decodeSocksAddr (bs : List Nat) : Except String (SocksAddr × List Nat) :=
  match bs with
  | [] => .error "unsupported bind address type: 0"
  | t :: rest =>
    match decodeBind t rest with
    | (.error e, _, _) => .error e
    | (.ok sa, rest2, _) =>
      let (rawPort, rest3) := readConn rest2 2
      if rawPort.length < 2 then .error "parse bind port failed: bind port too short"
      else .ok (sa.SetPort (beUint16 rawPort), rest3)

/-- The `SocksDialer` struct (the `net.Dialer` is the host transport). -/
structure SocksDialer where
  addr : SocksAddr

/-- `(*SocksDialer).DialContext` from sock_dialer.go.

The host transport is abstracted: `tcpDialErr` / `udpDialErr` are the
outcomes of the two `d.dialer.DialContext` calls (`none` = success),
`input` is the byte stream the proxy connection yields, writes always
succeed (the claims all condition on replies having been received), and
the cancellation context is not modelled (per the spec it is honored only
for the initial connect).  The `net.PacketConn`/`*net.UDPConn` type
assertions of the UDP tail hold for every address the host UDP dialer
returns, so a successful UDP dial yields the `SocksPacketConn`. -/
def SocksDialer.DialContext (d : SocksDialer) (tcpDialErr udpDialErr : Option String)
    (network addr : List Nat) (input : List Nat) : DialOutcome :=
  if network ≠ gostr "tcp" ∧ network ≠ gostr "udp" then
    ⟨.error ("unsupported network type: " ++ strOfBytes network), []⟩
  else
    match tcpDialErr with
    | some e => ⟨.error ("dial faile: " ++ e), [.dialTCP d.addr]⟩
    | none =>
      let negoReq : List Nat := [5, 1, 0]  -- Version5, 1, MethodNoAuth
      let ev1 : List Event := [.dialTCP d.addr, .write negoReq]
      let (negoRes, in1) := readConn input 2
      let ev2 := ev1 ++ [Event.read negoRes]
      if negoRes.length < 2 then ⟨.error "negotiation response too short", ev2⟩
      else if negoRes.getD 0 0 ≠ 5 then
        -- NOTE: the source prints negoReq[0] (the constant 5), not the
        -- received byte negoRes[0]
        ⟨.error ("unsupported negotiation response version: " ++ toString (negoReq.getD 0 0)), ev2⟩
      else
        let reqType := if network = gostr "tcp" then "connect" else "associate"
        let cmd : Nat := if network = gostr "tcp" then 1 else 3
        match ParseSocksAddr addr with
        | .error e => ⟨.error ("parse socks addr failed: " ++ e), ev2⟩
        | .ok sAddr =>
          let authReq := [5, cmd, 0] ++ sAddr.Slice
          let ev3 := ev2 ++ [Event.write authReq]
          let (authRes, in2) := readConn in1 4
          let ev4 := ev3 ++ [Event.read authRes]
          if authRes.length < 4 then ⟨.error (reqType ++ " response too short"), ev4⟩
          else if authRes.getD 0 0 ≠ 5 then
            -- NOTE: again the source prints negoReq[0], the constant 5
            ⟨.error ("unsupported " ++ reqType ++ " response version: " ++
              toString (negoReq.getD 0 0)), ev4⟩
          else if authRes.getD 1 0 ≠ 0 then
            ⟨.error (reqType ++ " failed: " ++ handleAssociateStatus (authRes.getD 1 0)), ev4⟩
          else if authRes.getD 2 0 ≠ 0 then
            ⟨.error ("invalid " ++ reqType ++ " response reserved byte: " ++
              toString (authRes.getD 2 0)), ev4⟩
          else
            match decodeBind (authRes.getD 3 0) in2 with
            | (.error e, _, rEv) => ⟨.error e, ev4 ++ rEv⟩
            | (.ok bindAddr0, in3, rEv) =>
              let ev5 := ev4 ++ rEv
              let (rawPort, _) := readConn in3 2
              let ev6 := ev5 ++ [Event.read rawPort]
              if rawPort.length < 2 then
                ⟨.error "parse bind port failed: bind port too short", ev6⟩
              else
                let bindAddr := bindAddr0.SetPort (beUint16 rawPort)
                if network = gostr "tcp" then ⟨.ok .tcpConn, ev6⟩
                else
                  match udpDialErr with
                  | some e => ⟨.error e, ev6 ++ [Event.dialUDP bindAddr]⟩
                  | none =>
                    let dest :=
                      if ¬ sAddr.addr.IsUnspecified ∧ sAddr.port ≠ 0 then some sAddr else none
                    ⟨.ok (.udpConn dest bindAddr), ev6 ++ [Event.dialUDP bindAddr]⟩

/-- The data-model invariant of the spec for `SocksAddr`: a 16-bit port and
exactly one of {a well-formed resolved address, a nonempty domain name of
at most 255 bytes} populated. -/
def SocksAddr.WF (sa : SocksAddr) : Prop :=
  sa.port < 65536 ∧
    ((sa.fqdn ≠ [] ∧ sa.fqdn.length ≤ 255 ∧ sa.addr = .invalid) ∨
     (sa.fqdn = [] ∧ ((∃ bs, sa.addr = .v4 bs ∧ bs.length = 4) ∨
                      (∃ bs, sa.addr = .v6 bs ∧ bs.length = 16))))

/-- "The port part does not parse as an integer in [0, 65535]", for the
fallback branch of `ParseSocksAddr` (the part after the first colon). -/
def portBad (s : List Nat) : Prop :=
  match Atoi (portPart s) with
  | none => True
  | some p => p < 0 ∨ 65535 < p

/-! ## Well-formedness facts about the parsers -/

theorem take_len_append {α : Type} (l₁ l₂ : List α) : (l₁ ++ l₂).take l₁.length = l₁ := by
  induction l₁ with
  | nil => simp
  | cons a l ih => simp [List.take, ih]

theorem drop_len_append {α : Type} (l₁ l₂ : List α) : (l₁ ++ l₂).drop l₁.length = l₂ := by
  induction l₁ with
  | nil => simp
  | cons a l ih => simp [List.drop, ih]

theorem beUint16_bePort {p : Nat} (hp : p < 65536) : beUint16 (bePort p) = p := by
  simp [beUint16, bePort, List.getD]
  omega

theorem parseUint16_le {s : List Nat} {p : Nat} (h : parseUint16 s = some p) : p ≤ 65535 := by
  unfold parseUint16 at h
  rcases hd : parseDigits s with _ | n <;> rw [hd] at h
  · exact absurd h (by simp)
  · by_cases hle : n ≤ 65535 <;> simp [hle] at h <;> omega

theorem parseIPv4Fields_length {s : List Nat} :
    ∀ {val digLen fields q}, fields.length ≤ 3 →
      parseIPv4Fields s val digLen fields = some q → q.length = 4 := by
  induction s with
  | nil =>
    intro val digLen fields q hf h
    unfold parseIPv4Fields at h
    by_cases h3 : fields.length < 3
    · simp [h3] at h
    · simp [h3] at h
      subst h
      simp
      omega
  | cons c rest ih =>
    intro val digLen fields q hf h
    unfold parseIPv4Fields at h
    by_cases hc : isDigit c = true
    · simp only [hc, if_true] at h
      by_cases hz : digLen = 1 ∧ val = 0
      · simp [hz] at h
      · simp only [hz, if_false] at h
        by_cases hv : val * 10 + (c - 48) > 255
        · simp [hv] at h
        · simp only [hv, if_false] at h
          exact ih hf h
    · simp only [hc, if_false] at h
      by_cases hd : c = dotByte
      · simp only [hd, if_true] at h
        by_cases h0 : digLen = 0
        · simp [h0] at h
        · simp only [h0, if_false] at h
          by_cases hr : rest = []
          · simp [hr] at h
          · simp only [hr, if_false] at h
            by_cases h3 : fields.length = 3
            · simp [h3] at h
            · simp only [h3, if_false] at h
              exact ih (by simp; omega) h
      · simp [hd] at h

theorem parseIPv4_shape {s : List Nat} {a : Addr} (h : parseIPv4 s = some a) :
    ∃ bs, a = .v4 bs ∧ bs.length = 4 := by
  unfold parseIPv4 at h
  rcases hq : parseIPv4Fields s 0 0 [] with _ | q <;> rw [hq] at h
  · exact absurd h (by simp)
  · simp at h
    exact ⟨q, h.symm, parseIPv4Fields_length (by simp) hq⟩

/-- Loop invariant of `ipv6Loop`: the byte count stays even and at most 16,
and the recorded ellipsis position never exceeds the byte count. -/
theorem ipv6Loop_inv {fuel : Nat} :
    ∀ {s acc ell out}, acc.length % 2 = 0 → acc.length ≤ 16 →
      (∀ e, ell = some e → e ≤ acc.length) →
      ipv6Loop fuel s acc ell = some out →
      out.2.1.length % 2 = 0 ∧ out.2.1.length ≤ 16 ∧
        (∀ e, out.2.2 = some e → e ≤ out.2.1.length) := by
  induction fuel with
  | zero =>
    intro s acc ell out h2 h16 hell h
    unfold ipv6Loop at h
    cases h
    exact ⟨h2, h16, hell⟩
  | succ fuel ih =>
    intro s acc ell out h2 h16 hell h
    unfold ipv6Loop at h
    by_cases hfull : 16 ≤ acc.length
    · simp only [hfull, if_true] at h
      cases h
      exact ⟨h2, h16, hell⟩
    · simp only [hfull, if_false] at h
      rcases hscan : scanHexGroup s 0 0 with _ | ⟨v, off, rest⟩ <;> rw [hscan] at h
      · exact absurd h (by simp)
      · simp only at h
        by_cases hoff : off = 0
        · simp [hoff] at h
        · simp only [hoff, if_false] at h
          by_cases hdot : rest.head? = some dotByte
          · simp only [hdot, if_true] at h
            by_cases he : ell = none ∧ acc.length ≠ 12
            · simp [he] at h
            · simp only [he, if_false] at h
              by_cases hb : 16 < acc.length + 4
              · simp [hb] at h
              · simp only [hb, if_false] at h
                rcases hq : parseIPv4Fields s 0 0 [] with _ | q <;> rw [hq] at h
                · exact absurd h (by simp)
                · simp only at h
                  cases h
                  have hq4 : q.length = 4 := parseIPv4Fields_length (by simp) hq
                  refine ⟨?_, ?_, ?_⟩
                  · simp [hq4]; omega
                  · simp [hq4]; omega
                  · intro e hee
                    have := hell e hee
                    simp [hq4]; omega
          · simp only [hdot, if_false] at h
            have hacc2 : (acc ++ [v / 256, v % 256]).length = acc.length + 2 := by simp
            have inv2 : (acc ++ [v / 256, v % 256]).length % 2 = 0 := by rw [hacc2]; omega
            have inv16 : (acc ++ [v / 256, v % 256]).length ≤ 16 := by rw [hacc2]; omega
            rcases rest with _ | ⟨c, rest2⟩
            · simp only at h
              cases h
              exact ⟨inv2, inv16, fun e hee => by have := hell e hee; simp; omega⟩
            · simp only at h
              by_cases hc : c ≠ colonByte
              · simp [hc] at h
              · simp only [hc, if_false] at h
                rcases rest2 with _ | ⟨c2, rest3⟩
                · exact absurd h (by simp)
                · simp only at h
                  by_cases hc2 : c2 = colonByte
                  · simp only [hc2, if_true] at h
                    by_cases hes : ell.isSome
                    · simp [hes] at h
                    · simp only [hes, if_false] at h
                      by_cases hr3 : rest3 = []
                      · simp only [hr3, if_true] at h
                        cases h
                        exact ⟨inv2, inv16, fun e hee => by simp at hee ⊢; omega⟩
                      · simp only [hr3, if_false] at h
                        exact ih inv2 inv16 (fun e hee => by simp at hee ⊢; omega) h
                  · simp only [hc2, if_false] at h
                    exact ih inv2 inv16
                      (fun e hee => by have := hell e hee; simp; omega) h

theorem ipv6Post_shape {s acc : List Nat} {ell : Option Nat} {a : Addr}
    (h16 : acc.length ≤ 16) (hell : ∀ e, ell = some e → e ≤ acc.length)
    (h : ipv6Post (some (s, acc, ell)) = some a) :
    ∃ bs, a = .v6 bs ∧ bs.length = 16 := by
  unfold ipv6Post at h
  by_cases hs : s = []
  · subst hs
    simp only [ne_eq, not_true_eq_false, if_false] at h
    by_cases hlt : acc.length < 16
    · simp only [hlt, if_true] at h
      rcases hel : ell with _ | e <;> rw [hel] at h
      · exact absurd h (by simp)
      · simp only at h
        have he : e ≤ acc.length := hell e hel
        refine ⟨_, (Option.some.inj h).symm, ?_⟩
        simp [List.length_take]
        omega
    · simp only [hlt, if_false] at h
      by_cases hes : ell.isSome
      · simp [hes] at h
      · simp only [hes, if_false] at h
        exact ⟨acc, (Option.some.inj h).symm, by omega⟩
  · simp [hs] at h

theorem ipv6Run_shape {s : List Nat} {ell0 : Option Nat} {a : Addr}
    (hell0 : ∀ e, ell0 = some e → e = 0)
    (h : ipv6Post (ipv6Loop 8 s [] ell0) = some a) :
    ∃ bs, a = .v6 bs ∧ bs.length = 16 := by
  rcases hl : ipv6Loop 8 s [] ell0 with _ | ⟨s', acc', ell'⟩ <;> rw [hl] at h
  · exact absurd h (by simp [ipv6Post])
  · have inv := ipv6Loop_inv (by simp) (by simp)
      (fun e he => by simp [hell0 e he]) hl
    exact ipv6Post_shape inv.2.1 inv.2.2 h

theorem parseIPv6_shape {s0 : List Nat} {a : Addr} (h : parseIPv6 s0 = some a) :
    ∃ bs, a = .v6 bs ∧ bs.length = 16 := by
  unfold parseIPv6 at h
  by_cases hz : percentByte ∈ s0 ∧ (s0.dropWhile (fun c => c != percentByte)).tail = []
  · simp only [hz, if_true] at h
    exact absurd h (by simp)
  · simp only [hz, if_false] at h
    rcases htw : s0.takeWhile (fun c => c != percentByte) with _ | ⟨c1, tl⟩ <;>
      rw [htw] at h
    · exact ipv6Run_shape (by simp) h
    · rcases tl with _ | ⟨c2, rest⟩
      · exact ipv6Run_shape (by simp) h
      · simp only at h
        by_cases hcc : c1 = colonByte ∧ c2 = colonByte
        · simp only [hcc, if_true] at h
          by_cases hr : rest = []
          · simp only [hr, if_true] at h
            exact ⟨_, (Option.some.inj h).symm, by simp⟩
          · simp only [hr, if_false] at h
            exact ipv6Run_shape (by simp) h
        · simp only [hcc, if_false] at h
          exact ipv6Run_shape (by simp) h

theorem ParseAddr_shape {s : List Nat} {a : Addr} (h : ParseAddr s = some a) :
    (∃ bs, a = .v4 bs ∧ bs.length = 4) ∨ (∃ bs, a = .v6 bs ∧ bs.length = 16) := by
  unfold ParseAddr at h
  rcases hf : s.find? (fun c => c == dotByte || c == colonByte || c == percentByte)
    with _ | c <;> rw [hf] at h
  · exact absurd h (by simp)
  · by_cases hd : c = dotByte
    · simp only [hd, if_true] at h
      exact .inl (parseIPv4_shape h)
    · simp only [hd, if_false] at h
      by_cases hc : c = colonByte
      · simp only [hc, if_true] at h
        exact .inr (parseIPv6_shape h)
      · simp [hc] at h

theorem ParseAddrPort_shape {s : List Nat} {ap : AddrPort} (h : ParseAddrPort s = some ap) :
    ((∃ bs, ap.addr = .v4 bs ∧ bs.length = 4) ∨ (∃ bs, ap.addr = .v6 bs ∧ bs.length = 16)) ∧
      ap.port ≤ 65535 := by
  unfold ParseAddrPort at h
  rcases hsp : splitAddrPort s with _ | ⟨ip, port, v6⟩ <;> rw [hsp] at h
  · exact absurd h (by simp)
  · simp only at h
    rcases hp : parseUint16 port with _ | p <;> rw [hp] at h
    · exact absurd h (by simp)
    · rcases ha : ParseAddr ip with _ | a <;> rw [ha] at h
      · exact absurd h (by simp)
      · simp only at h
        by_cases h1 : (v6 && a.Is4) = true
        · simp [h1] at h
        · simp only [h1, if_false] at h
          by_cases h2 : (!v6 && a.Is6) = true
          · simp [h2] at h
          · simp only [h2, if_false] at h
            cases h
            exact ⟨ParseAddr_shape ha, parseUint16_le hp⟩

/-- The shapes a `ParseSocksAddr` success can take, with the invariants the
round-trip needs: the port fits 16 bits, the stored address is never in
IPv4-mapped form, the stored name is at most 255 bytes, and the result is
either the FQDN fallback (host part of the input, which then contained a
colon) or a well-formed resolved address with no name. -/
theorem ParseSocksAddr_ok {s : List Nat} {sa : SocksAddr}
    (h : ParseSocksAddr s = .ok sa) :
    sa.port ≤ 65535 ∧ sa.addr.Is4In6 = false ∧ sa.fqdn.length ≤ 255 ∧
      ((sa.addr = .invalid ∧ sa.fqdn = hostPart s ∧ colonByte ∈ s) ∨
       (sa.fqdn = [] ∧ ((∃ bs, sa.addr = .v4 bs ∧ bs.length = 4) ∨
         (∃ bs, sa.addr = .v6 bs ∧ bs.length = 16 ∧ bs.take 12 ≠ mapped96)))) := by
  unfold ParseSocksAddr at h
  rcases hap : ParseAddrPort s with _ | ap <;> rw [hap] at h
  · simp only at h
    by_cases hc : colonByte ∈ s
    · simp only [hc, if_true] at h
      by_cases hlong : (hostPart s).length > 255
      · simp [hlong] at h
      · simp only [hlong, if_false] at h
        rcases hat : Atoi (portPart s) with _ | p <;> rw [hat] at h
        · exact absurd h (by simp)
        · simp only at h
          by_cases hr : p < 0 ∨ p > 65535
          · simp [hr] at h
          · simp only [hr, if_false] at h
            cases h
            refine ⟨?_, rfl, ?_, .inl ⟨rfl, rfl, hc⟩⟩
            · show p.toNat ≤ 65535
              omega
            · show (hostPart s).length ≤ 255
              omega
    · simp [hc] at h
  · obtain ⟨hshape, hport⟩ := ParseAddrPort_shape hap
    by_cases h46 : ap.addr.Is4In6 = true
    · simp only [h46, if_true] at h
      cases h
      rcases hshape with ⟨bs, hbs, hlen⟩ | ⟨bs, hbs, hlen⟩
      · rw [hbs] at h46; exact absurd h46 (by simp [Addr.Is4In6])
      · refine ⟨hport, ?_, by simp, .inr ⟨rfl, .inl ⟨bs.drop 12, ?_, by simp [hlen]⟩⟩⟩
        · rw [hbs] at h46 ⊢
          simp only [Addr.Is4In6, decide_eq_true_eq] at h46
          simp [Addr.Unmap, h46, Addr.Is4In6]
        · rw [hbs] at h46 ⊢
          simp only [Addr.Is4In6, decide_eq_true_eq] at h46
          simp [Addr.Unmap, h46]
    · simp only [h46, if_false] at h
      cases h
      rcases hshape with ⟨bs, hbs, hlen⟩ | ⟨bs, hbs, hlen⟩
      · exact ⟨hport, by simp [hbs, Addr.Is4In6], by simp,
          .inr ⟨rfl, .inl ⟨bs, hbs, hlen⟩⟩⟩
      · refine ⟨hport, by simpa using h46, by simp,
          .inr ⟨rfl, .inr ⟨bs, hbs, hlen, ?_⟩⟩⟩
        rw [hbs] at h46
        simpa [Addr.Is4In6] using h46

/-! ## Round-trip evaluation lemmas -/

theorem bePort_take2 (p : Nat) : (bePort p).take 2 = bePort p := rfl

theorem bePort_drop2 (p : Nat) : (bePort p).drop 2 = [] := rfl

theorem bePort_length (p : Nat) : (bePort p).length = 2 := rfl

theorem hostPart_ne_nil {s : List Nat} (hmem : colonByte ∈ s)
    (hhead : s.head? ≠ some colonByte) : hostPart s ≠ [] := by
  rcases s with _ | ⟨c, s'⟩
  · cases hmem
  · have hc : c ≠ colonByte := fun h => hhead (by simp [h])
    simp [hostPart, hc]

/-- Encode-then-decode on a name-backed address: the decoder returns the
same name and port with nothing left over. -/
theorem decode_Slice_fqdn {sa : SocksAddr} (ha : sa.addr = .invalid)
    (hf : sa.fqdn ≠ []) (hlen : sa.fqdn.length ≤ 255) (hp : sa.port < 65536) :
    decodeSocksAddr sa.Slice = .ok (sa, []) := by
  obtain ⟨a, f, p⟩ := sa
  simp only at ha hf hlen hp
  subst ha
  have hfl : 0 < f.length := List.length_pos.mpr hf
  have hmod : f.length % 256 = f.length := Nat.mod_eq_of_lt (by omega)
  have hslice : SocksAddr.Slice ⟨.invalid, f, p⟩ = 3 :: f.length :: (f ++ bePort p) := by
    simp [SocksAddr.Slice, hfl, hmod]
  rw [hslice]
  simp only [decodeSocksAddr, decodeBind, readConn]
  simp [take_len_append, drop_len_append, bePort_take2, bePort_drop2, bePort_length,
    SocksAddr.SetFqdn, SocksAddr.SetPort, beUint16_bePort hp, Nat.lt_irrefl, hfl]

/-- Encode-then-decode on an IPv4-backed address. -/
theorem decode_Slice_v4 {sa : SocksAddr} {bs : List Nat} (ha : sa.addr = .v4 bs)
    (hf : sa.fqdn = []) (hlen : bs.length = 4) (hp : sa.port < 65536) :
    decodeSocksAddr sa.Slice = .ok (sa, []) := by
  obtain ⟨a, f, p⟩ := sa
  simp only at ha hf hp
  subst ha; subst hf
  have hslice : SocksAddr.Slice ⟨.v4 bs, [], p⟩ = 1 :: (bs ++ bePort p) := by
    simp [SocksAddr.Slice, Addr.Is4, Addr.AsSlice]
  have htake : (bs ++ bePort p).take 4 = bs := by rw [← hlen]; exact take_len_append _ _
  have hdrop : (bs ++ bePort p).drop 4 = bePort p := by rw [← hlen]; exact drop_len_append _ _
  rw [hslice]
  simp only [decodeSocksAddr, decodeBind, readConn]
  simp [htake, hdrop, hlen, AddrFromSlice, bePort_take2, bePort_drop2, bePort_length,
    SocksAddr.SetAddr, Addr.Is4In6, SocksAddr.SetPort, beUint16_bePort hp]

/-- Encode-then-decode on an IPv6-backed address that is not in
IPv4-mapped form (as every address `ParseSocksAddr` stores). -/
theorem decode_Slice_v6 {sa : SocksAddr} {bs : List Nat} (ha : sa.addr = .v6 bs)
    (hf : sa.fqdn = []) (hlen : bs.length = 16) (hnm : bs.take 12 ≠ mapped96)
    (hp : sa.port < 65536) :
    decodeSocksAddr sa.Slice = .ok (sa, []) := by
  obtain ⟨a, f, p⟩ := sa
  simp only at ha hf hp
  subst ha; subst hf
  have hslice : SocksAddr.Slice ⟨.v6 bs, [], p⟩ = 4 :: (bs ++ bePort p) := by
    simp [SocksAddr.Slice, Addr.Is4, Addr.AsSlice]
  have htake : (bs ++ bePort p).take 16 = bs := by rw [← hlen]; exact take_len_append _ _
  have hdrop : (bs ++ bePort p).drop 16 = bePort p := by rw [← hlen]; exact drop_len_append _ _
  rw [hslice]
  simp only [decodeSocksAddr, decodeBind, readConn]
  simp [htake, hdrop, hlen, AddrFromSlice, bePort_take2, bePort_drop2, bePort_length,
    SocksAddr.SetAddr, Addr.Is4In6, hnm, SocksAddr.SetPort, beUint16_bePort hp]

theorem SetAddr_not_4in6 (sa : SocksAddr) (a : Addr) :
    (sa.SetAddr a).addr.Is4In6 = false := by
  unfold SocksAddr.SetAddr
  rcases a with _ | bs | bs
  · simp [Addr.Is4In6]
  · simp [Addr.Is4In6]
  · by_cases h : bs.take 12 = mapped96
    · simp [Addr.Is4In6, h, Addr.Unmap]
    · simp [Addr.Is4In6, h]

/-! ## The claims -/

/-- C2: for every `SocksAddr` (satisfying the spec's data-model invariant),
`Slice()` produces exactly one address-type tag byte (0x01 IPv4, 0x03 FQDN,
0x04 IPv6), then the address body (4 bytes for IPv4, a 1-byte length
followed by that many name bytes for FQDN, 16 bytes for IPv6), then the
port as an unsigned 16-bit big-endian integer. -/
theorem Slice_wire_layout (sa : SocksAddr) (hwf : sa.WF) :
    (sa.fqdn ≠ [] →
      sa.Slice = 3 :: sa.fqdn.length :: sa.fqdn ++ [sa.port / 256, sa.port % 256] ∧
        sa.fqdn.length ≤ 255) ∧
    (∀ bs, sa.addr = .v4 bs → sa.fqdn = [] →
      sa.Slice = 1 :: bs ++ [sa.port / 256, sa.port % 256] ∧ bs.length = 4) ∧
    (∀ bs, sa.addr = .v6 bs → sa.fqdn = [] →
      sa.Slice = 4 :: bs ++ [sa.port / 256, sa.port % 256] ∧ bs.length = 16) := by
  obtain ⟨hport, hcase⟩ := hwf
  have hdiv : sa.port / 256 < 256 := by omega
  have hbe : bePort sa.port = [sa.port / 256, sa.port % 256] := by
    simp [bePort, Nat.mod_eq_of_lt hdiv]
  refine ⟨fun hf => ?_, fun bs hbs hf => ?_, fun bs hbs hf => ?_⟩
  · rcases hcase with ⟨_, hlen, _⟩ | ⟨he, _⟩
    · have hc : 0 < sa.fqdn.length := List.length_pos.mpr hf
      have hmod : sa.fqdn.length % 256 = sa.fqdn.length := Nat.mod_eq_of_lt (by omega)
      refine ⟨?_, hlen⟩
      simp [SocksAddr.Slice, hc, hmod, hbe]
    · exact absurd he hf
  · rcases hcase with ⟨hne, _, _⟩ | ⟨_, ⟨bs', hbs', hlen⟩ | ⟨bs', hbs', _⟩⟩
    · exact absurd hf hne
    · rw [hbs'] at hbs
      cases hbs
      refine ⟨?_, hlen⟩
      simp [SocksAddr.Slice, hf, hbs', Addr.Is4, Addr.AsSlice, hbe]
    · rw [hbs'] at hbs; cases hbs
  · rcases hcase with ⟨hne, _, _⟩ | ⟨_, ⟨bs', hbs', _⟩ | ⟨bs', hbs', hlen⟩⟩
    · exact absurd hf hne
    · rw [hbs'] at hbs; cases hbs
    · rw [hbs'] at hbs
      cases hbs
      refine ⟨?_, hlen⟩
      simp [SocksAddr.Slice, hf, hbs', Addr.Is4, Addr.AsSlice, hbe]

/-- Witness for C2 at a concrete address of each backing kind. -/
theorem Slice_wire_layout_witness :
    (SocksAddr.WF ⟨.v4 [10, 0, 0, 7], [], 258⟩) ∧
      SocksAddr.Slice ⟨.v4 [10, 0, 0, 7], [], 258⟩ = 1 :: [10, 0, 0, 7] ++ [1, 2] :=
  ⟨⟨by decide, .inr ⟨rfl, .inl ⟨[10, 0, 0, 7], rfl, rfl⟩⟩⟩,
    by
      have h := ((Slice_wire_layout ⟨.v4 [10, 0, 0, 7], [], 258⟩
        ⟨by decide, .inr ⟨rfl, .inl ⟨[10, 0, 0, 7], rfl, rfl⟩⟩⟩).2.1 [10, 0, 0, 7] rfl rfl).1
      simpa using h⟩

/-- C6: every network argument other than "tcp" and "udp" fails immediately
with an unsupported-network error and performs no transport I/O at all
(the event trace is empty: in particular no TCP connection to the proxy is
opened). -/
theorem unsupported_network_no_io (d : SocksDialer) (tcpE udpE : Option String)
    (network addr input : List Nat)
    (h1 : network ≠ gostr "tcp") (h2 : network ≠ gostr "udp") :
    d.DialContext tcpE udpE network addr input =
      ⟨.error ("unsupported network type: " ++ strOfBytes network), []⟩ := by
  unfold SocksDialer.DialContext
  simp [h1, h2]

/-- Witness for C6 at network "icmp". -/
theorem unsupported_network_no_io_witness :
    gostr "icmp" ≠ gostr "tcp" ∧ gostr "icmp" ≠ gostr "udp" ∧
      (SocksDialer.mk ⟨.v4 [127, 0, 0, 1], [], 1080⟩).DialContext none none
        (gostr "icmp") (gostr "1.2.3.4:80") [] =
        ⟨.error ("unsupported network type: " ++ strOfBytes (gostr "icmp")), []⟩ :=
  ⟨by decide, by decide,
    unsupported_network_no_io _ none none _ _ [] (by decide) (by decide)⟩

/-- C8 counterexample: `SocksAddrFromAddrPort` performs no normalization,
so an IPv4-mapped IPv6 address is stored still in mapped (IPv6) form, not
as plain IPv4. -/
theorem SocksAddrFromAddrPort_keeps_mapped :
    (SocksAddrFromAddrPort ⟨.v6 (mapped96 ++ [1, 2, 3, 4]), 80⟩).addr =
        .v6 (mapped96 ++ [1, 2, 3, 4]) ∧
      (Addr.v6 (mapped96 ++ [1, 2, 3, 4])).Is4In6 = true ∧
      ∀ bs, (SocksAddrFromAddrPort ⟨.v6 (mapped96 ++ [1, 2, 3, 4]), 80⟩).addr ≠ .v4 bs :=
  ⟨rfl, by decide, fun bs h => by cases h⟩

/-- C8 amended: `ParseSocksAddr` and `SetAddr` always store addresses in
unmapped form, but `SocksAddrFromAddrPort` stores the address exactly as
given, mapped form included. -/
theorem mapped_normalization_per_operation :
    (∀ (s : List Nat) (sa : SocksAddr), ParseSocksAddr s = .ok sa →
      sa.addr.Is4In6 = false) ∧
    (∀ (sa : SocksAddr) (a : Addr), (sa.SetAddr a).addr.Is4In6 = false) ∧
    (∀ (ap : AddrPort), (SocksAddrFromAddrPort ap).addr = ap.addr) :=
  ⟨fun _ _ h => (ParseSocksAddr_ok h).2.1, SetAddr_not_4in6, fun _ => rfl⟩

/-- Witness for C8 (amended) on a concrete mapped literal. -/
theorem mapped_normalization_witness :
    ParseSocksAddr (gostr "[::ffff:1.2.3.4]:80") =
        .ok ⟨.v4 [1, 2, 3, 4], [], 80⟩ ∧
      (SocksAddr.mk (.v4 [1, 2, 3, 4]) [] 80).addr.Is4In6 = false :=
  ⟨by decide, mapped_normalization_per_operation.1 (gostr "[::ffff:1.2.3.4]:80")
    (SocksAddr.mk (.v4 [1, 2, 3, 4]) [] 80) (by decide)⟩

/-- C9 counterexample: after setting a domain name and then a resolved
address (in that order), `Slice` still serializes the domain name — the
resolved address set last is not used. -/
theorem setAddr_after_fqdn_not_used :
    ((SocksAddrFromFqdnPort (gostr "a") 1).SetAddr (.v4 [1, 2, 3, 4])).Slice =
        [3, 1, 97, 0, 1] ∧
      ((SocksAddrFromFqdnPort (gostr "a") 1).SetAddr (.v4 [1, 2, 3, 4])).Slice ≠
        1 :: (Addr.v4 [1, 2, 3, 4]).AsSlice ++ bePort 1 :=
  ⟨by decide, by decide⟩

/-- C9 amended: `Slice` prefers a nonempty domain name over the resolved
address regardless of setting order: setting a resolved address after a
domain name leaves serialization unchanged (still the domain name), while
setting a nonempty domain name after any `SocksAddr` — a resolved-address
one included — makes serialization use the domain name. -/
theorem slice_prefers_fqdn (sa : SocksAddr) (a : Addr) (f : List Nat)
    (hf2 : f ≠ []) :
    (sa.fqdn ≠ [] → (sa.SetAddr a).Slice = sa.Slice) ∧
      (sa.SetFqdn f).Slice = 3 :: f.length % 256 :: (f ++ bePort sa.port) := by
  have h1 : (sa.SetAddr a).fqdn = sa.fqdn := by
    unfold SocksAddr.SetAddr; split <;> rfl
  have h2 : (sa.SetAddr a).port = sa.port := by
    unfold SocksAddr.SetAddr; split <;> rfl
  constructor
  · intro hf
    have hc : 0 < sa.fqdn.length := List.length_pos.mpr hf
    simp [SocksAddr.Slice, h1, h2, hc]
  · simp [SocksAddr.Slice, SocksAddr.SetFqdn, List.length_pos.mpr hf2]

/-- Witness for C9 (amended): the first conjunct at a domain-name-backed
value, the second at a resolved-address-backed value — setting the name
"b" on an IPv4-backed `SocksAddr` makes `Slice` use the name. -/
theorem slice_prefers_fqdn_witness :
    ((SocksAddrFromFqdnPort (gostr "a") 1).SetAddr (.v6 (List.replicate 16 3))).Slice =
        (SocksAddrFromFqdnPort (gostr "a") 1).Slice ∧
      ((SocksAddr.mk (.v4 [1, 2, 3, 4]) [] 9).SetFqdn (gostr "b")).Slice =
        3 :: (gostr "b").length % 256 ::
          ((gostr "b") ++ bePort (SocksAddr.mk (.v4 [1, 2, 3, 4]) [] 9).port) :=
  ⟨(slice_prefers_fqdn (SocksAddrFromFqdnPort (gostr "a") 1)
      (.v6 (List.replicate 16 3)) (gostr "b") (by decide)).1 (by decide),
    (slice_prefers_fqdn (SocksAddr.mk (.v4 [1, 2, 3, 4]) [] 9)
      (.v6 (List.replicate 16 3)) (gostr "b") (by decide)).2⟩

/-- C10: for a domain name longer than 255 bytes (unchecked by
`SocksAddrFromFqdnPort`), `Slice` emits a length byte of `L mod 256`,
which differs from the actual number `L` of name bytes that follow. -/
theorem slice_long_fqdn_truncated_length (f : List Nat) (p : Nat)
    (h : 255 < f.length) :
    (SocksAddrFromFqdnPort f p).Slice = 3 :: f.length % 256 :: (f ++ bePort p) ∧
      f.length % 256 ≠ f.length := by
  have hc : 0 < f.length := by omega
  refine ⟨?_, by omega⟩
  simp [SocksAddr.Slice, SocksAddrFromFqdnPort, hc]

set_option maxRecDepth 10000 in
/-- Witness for C10 with a 256-byte name. -/
theorem slice_long_fqdn_truncated_length_witness :
    255 < (List.replicate 256 97).length ∧
      ((SocksAddrFromFqdnPort (List.replicate 256 97) 7).Slice =
          3 :: (List.replicate 256 97).length % 256 ::
            (List.replicate 256 97 ++ bePort 7) ∧
        (List.replicate 256 97).length % 256 ≠ (List.replicate 256 97).length) :=
  ⟨by simp, slice_long_fqdn_truncated_length (List.replicate 256 97) 7 (by simp)⟩

/-- C1: for every valid "host:port" or "ip:port" string — one that
`ParseSocksAddr` accepts and whose host part is nonempty (a leading colon
means an empty host) — encoding the parse result with `Slice` and decoding
those bytes with the three-variant by-type reply decoder returns exactly
the parsed address and port, with no bytes left over. -/
theorem parse_encode_decode_roundtrip {s : List Nat} {sa : SocksAddr}
    (h : ParseSocksAddr s = .ok sa) (hhead : s.head? ≠ some colonByte) :
    decodeSocksAddr sa.Slice = .ok (sa, []) := by
  obtain ⟨hport, h46, hflen, hcase⟩ := ParseSocksAddr_ok h
  rcases hcase with ⟨ha, hf, hc⟩ | ⟨hf, hshape⟩
  · refine decode_Slice_fqdn ha ?_ hflen (by omega)
    rw [hf]
    exact hostPart_ne_nil hc hhead
  · rcases hshape with ⟨bs, hbs, hlen⟩ | ⟨bs, hbs, hlen, hnm⟩
    · exact decode_Slice_v4 hbs hf hlen (by omega)
    · exact decode_Slice_v6 hbs hf hlen hnm (by omega)

/-- Witness for C1 on a domain-name input. -/
theorem parse_encode_decode_roundtrip_witness :
    ParseSocksAddr (gostr "example.com:80") =
        .ok ⟨.invalid, gostr "example.com", 80⟩ ∧
      (gostr "example.com:80").head? ≠ some colonByte ∧
      decodeSocksAddr (SocksAddr.Slice ⟨.invalid, gostr "example.com", 80⟩) =
        .ok (⟨.invalid, gostr "example.com", 80⟩, []) :=
  ⟨by decide, by decide,
    @parse_encode_decode_roundtrip (gostr "example.com:80")
      ⟨.invalid, gostr "example.com", 80⟩ (by decide) (by decide)⟩

/-- C7: `ParseSocksAddr` returns an error exactly when the input is not a
valid ip:port literal (`ParseAddrPort` rejects it) and, in addition, it
either contains no colon, or its host part (before the first colon)
exceeds 255 bytes, or its port part (after the first colon) does not parse
as an integer in [0, 65535]; otherwise the fallback returns a `SocksAddr`
holding that host and port. -/
theorem ParseSocksAddr_error_characterization (s : List Nat) :
    ((∃ e, ParseSocksAddr s = .error e) ↔
      ParseAddrPort s = none ∧
        (colonByte ∉ s ∨ 255 < (hostPart s).length ∨ portBad s)) ∧
    (∀ p : Int, ParseAddrPort s = none → colonByte ∈ s →
      (hostPart s).length ≤ 255 → Atoi (portPart s) = some p →
      0 ≤ p → p ≤ 65535 →
      ParseSocksAddr s = .ok ⟨.invalid, hostPart s, p.toNat⟩) := by
  constructor
  · unfold ParseSocksAddr portBad
    rcases hap : ParseAddrPort s with _ | ap
    · by_cases hc : colonByte ∈ s
      · by_cases hlong : 255 < (hostPart s).length
        · simp [hc, hlong, show (hostPart s).length > 255 from hlong]
        · have hn : ¬((hostPart s).length > 255) := by omega
          rcases hat : Atoi (portPart s) with _ | p
          · simp [hc, hn]
          · by_cases hr : p < 0 ∨ p > 65535
            · rcases hr with h | h <;> simp [hc, hn, h]
            · simp [hc, hn, hr]
      · simp [hc]
    · constructor
      · rintro ⟨e, he⟩
        by_cases h46 : ap.addr.Is4In6 = true <;> simp [h46] at he
      · rintro ⟨hnone, -⟩
        cases hnone
  · intro p hap hc hlen hat hge hle
    unfold ParseSocksAddr
    rw [hap]
    simp only [hc, if_true, show ((hostPart s).length > 255) = False from
      eq_false (by omega), if_false]
    rw [hat]
    simp only [show (p < 0 ∨ p > 65535) = False from eq_false (by omega), if_false]

/-- Witness for C7: a hostname input rejected by `ParseAddrPort` lands in
the fallback with that host and port. -/
theorem ParseSocksAddr_error_characterization_witness :
    ParseAddrPort (gostr "abc:80") = none ∧
      ParseSocksAddr (gostr "abc:80") =
        .ok ⟨.invalid, hostPart (gostr "abc:80"), (80 : Int).toNat⟩ :=
  ⟨by decide, (ParseSocksAddr_error_characterization (gostr "abc:80")).2 80
    (by decide) (by decide) (by decide) (by decide) (by decide) (by decide)⟩

/-- C3: a command reply whose status byte is nonzero makes `DialContext`
return an error (no connection object), whose message is built from the
fixed status→message table `handleAssociateStatus`: codes 1–9 map to the
listed reasons, codes 4 and 9 both render "host unreachable", and every
code outside the table renders "unassigned". -/
theorem reply_status_maps_table (proxy : SocksAddr) (udpE : Option String)
    (network addr : List Nat) (sAddr : SocksAddr) (m status x y : Nat)
    (rest : List Nat)
    (hnet : network = gostr "tcp" ∨ network = gostr "udp")
    (hparse : ParseSocksAddr addr = .ok sAddr) (hstatus : status ≠ 0) :
    ((SocksDialer.mk proxy).DialContext none udpE network addr
        ([5, m, 5, status, x, y] ++ rest)).result =
      .error ((if network = gostr "tcp" then "connect" else "associate") ++
        " failed: " ++ handleAssociateStatus status) ∧
    handleAssociateStatus 1 = "associate failed: general socks server failure" ∧
    handleAssociateStatus 2 = "connection not allowed by ruleset" ∧
    handleAssociateStatus 3 = "network unreachable" ∧
    handleAssociateStatus 4 = "host unreachable" ∧
    handleAssociateStatus 5 = "connection refused" ∧
    handleAssociateStatus 6 = "ttl expired" ∧
    handleAssociateStatus 7 = "command not supported" ∧
    handleAssociateStatus 8 = "address type not supported" ∧
    handleAssociateStatus 9 = "host unreachable" ∧
    (∀ b : Nat, b = 0 ∨ 10 ≤ b → handleAssociateStatus b = "unassigned") := by
  refine ⟨?_, rfl, rfl, rfl, rfl, rfl, rfl, rfl, rfl, rfl, ?_⟩
  · rcases hnet with h | h <;> subst h <;>
      (unfold SocksDialer.DialContext; simp +decide [readConn, hparse, hstatus])
  · intro b hb
    unfold handleAssociateStatus
    rcases hb with hb | hb
    · subst hb; rfl
    · simp only [show (b = 1) = False from eq_false (by omega), if_false,
        show (b = 2) = False from eq_false (by omega), if_false,
        show (b = 3) = False from eq_false (by omega), if_false,
        show (b = 4) = False from eq_false (by omega), if_false,
        show (b = 5) = False from eq_false (by omega), if_false,
        show (b = 6) = False from eq_false (by omega), if_false,
        show (b = 7) = False from eq_false (by omega), if_false,
        show (b = 8) = False from eq_false (by omega), if_false,
        show (b = 9) = False from eq_false (by omega), if_false]

/-- Witness for C3: status 9 on an ASSOCIATE attempt. -/
theorem reply_status_maps_table_witness :
    ((SocksDialer.mk ⟨.v4 [127, 0, 0, 1], [], 1080⟩).DialContext none none
        (gostr "udp") (gostr "a:1") ([5, 0, 5, 9, 0, 0] ++ [])).result =
      .error ((if gostr "udp" = gostr "tcp" then "connect" else "associate") ++
        " failed: " ++ handleAssociateStatus 9) :=
  (reply_status_maps_table ⟨.v4 [127, 0, 0, 1], [], 1080⟩ none (gostr "udp")
    (gostr "a:1") ⟨.invalid, [97], 1⟩ 0 9 0 0 [] (.inr rfl) (by decide)
    (by decide)).1

/-- C4 (code bug): a command reply with bound-address type FQDN and a
declared length byte of 0 is NOT rejected.  The source's guard tests
`n == 0` — the byte count returned by the read — instead of the length
byte's value, while its own error message says "length is zero"; so the
declared-zero-length reply decodes an empty bound name and the handshake
succeeds.  Here the full stream `[5,0] [5,0,0,3] [0] [0,53]` yields an
open connection, and the decoder arm maps `[0]` to the empty name. -/
theorem fqdn_zero_length_accepted :
    ((SocksDialer.mk ⟨.v4 [127, 0, 0, 1], [], 1080⟩).DialContext none none
        (gostr "tcp") (gostr "1.2.3.4:80") [5, 0, 5, 0, 0, 3, 0, 0, 53]).result =
      .ok .tcpConn ∧
    decodeBind 3 [0] = (.ok (SocksAddr.SetFqdn {} []), [], [.read [0], .read []]) :=
  ⟨by decide, by decide⟩

/-- C5 (code bug): a version byte other than 5 does make the session fail,
but the error message always reports "5" — the source interpolates
`negoReq[0]`, the constant version byte of its own request, instead of the
received byte.  Received version 4 in the negotiation reply and version 6
in the command reply are both reported as "5". -/
theorem version_error_reports_request_constant :
    ((SocksDialer.mk ⟨.v4 [127, 0, 0, 1], [], 1080⟩).DialContext none none
        (gostr "tcp") (gostr "1.2.3.4:80") [4, 0]).result =
      .error "unsupported negotiation response version: 5" ∧
    ((SocksDialer.mk ⟨.v4 [127, 0, 0, 1], [], 1080⟩).DialContext none none
        (gostr "tcp") (gostr "1.2.3.4:80")
        [5, 0, 6, 0, 0, 1, 9, 9, 9, 9, 0, 53]).result =
      .error "unsupported connect response version: 5" :=
  ⟨by decide, by decide⟩

end Dialer
